import Mathlib

/-!
Verification of the VehicleReIdenti repository: shallow embedding of the
job-lifecycle data model and of the frontend components
(`LiveAnalysis.tsx`, `UploadCard.tsx`, `VideosPage`, `videos/[id]/page.tsx`),
with theorems settling the spec claims about them.
-/

namespace VehicleReId

/-! ## Data model (spec section 3) -/

/-- Job status enum: `queued`, `processing`, `completed`, `failed`. -/
inductive JobStatus where
  | queued
  | processing
  | completed
  | failed
deriving DecidableEq, Repr

/-- A status is terminal when it is `completed` or `failed`. -/
def JobStatus.isTerminal : JobStatus → Bool
  | .completed => true
  | .failed => true
  | _ => false

/-- AnalysisResult record: summary text, named numeric metrics, artifact references. -/
structure AnalysisResultRec where
  summary : String
  metrics : List (String × Int)
  artifacts : List String
deriving DecidableEq, Repr

/-- The mutable per-job state held by the Job Record Store: status, progress,
the optional AnalysisResult (present only once completed) and the optional
error message (set on failure). -/
structure JobState where
  status : JobStatus
  progress : Int
  result : Option AnalysisResultRec
  errorMessage : Option String
deriving DecidableEq, Repr

/-- Modelled from the spec: the state a job is created in by the upload
handler (`status=queued`, `progress=0`); the backend implementation
(Backend/app) is not present under src/. -/
def initialJob : JobState :=
  { status := .queued, progress := 0, result := none, errorMessage := none }

/-- Modelled from the spec: one mutation of a job row by the Job Lifecycle
Engine's background execution (Backend/app/services, not present under src/).
Constructors follow spec section 4.1: start sets `processing` with progress in
[old, 99]; progress updates stay in [old, 99] and keep `processing`; completion
sets `completed`, progress 100 and the AnalysisResult; failure sets `failed`
with a non-empty error message and freezes progress. -/
inductive EngineStep : JobState → JobState → Prop where
  | start (j : JobState) (p : Int) (hq : j.status = .queued)
      (hle : j.progress ≤ p) (hcap : p ≤ 99) :
      EngineStep j ⟨.processing, p, j.result, j.errorMessage⟩
  | advance (j : JobState) (p : Int) (hp : j.status = .processing)
      (hle : j.progress ≤ p) (hcap : p ≤ 99) :
      EngineStep j ⟨.processing, p, j.result, j.errorMessage⟩
  | complete (j : JobState) (r : AnalysisResultRec) (hp : j.status = .processing) :
      EngineStep j ⟨.completed, 100, some r, j.errorMessage⟩
  | fail (j : JobState) (msg : String) (hp : j.status = .processing)
      (hmsg : msg ≠ "") :
      EngineStep j ⟨.failed, j.progress, j.result, some msg⟩

/-- A job state reachable from creation by engine steps. -/
def JobReachable (j : JobState) : Prop :=
  Relation.ReflTransGen EngineStep initialJob j

/-- Status transitions allowed by the lifecycle: `queued → processing`,
`processing → processing` (progress update), `processing → completed`,
`processing → failed`. -/
def allowedTransition : JobStatus → JobStatus → Bool
  | .queued, .processing => true
  | .processing, .processing => true
  | .processing, .completed => true
  | .processing, .failed => true
  | _, _ => false

/-- Lifecycle invariant maintained by the engine on a job row. -/
def JobInv (j : JobState) : Prop :=
  (j.result.isSome ↔ j.status = .completed) ∧
  (j.status ≠ .completed → j.progress ≤ 99) ∧
  0 ≤ j.progress

theorem jobInv_initial : JobInv initialJob := by
  refine ⟨by simp [initialJob], by simp [initialJob], by simp [initialJob]⟩

theorem jobInv_step {j j' : JobState} (hinv : JobInv j) (hstep : EngineStep j j') :
    JobInv j' := by
  obtain ⟨hres, hcap, hpos⟩ := hinv
  cases hstep with
  | start p hq hle hcap2 =>
      refine ⟨?_, fun _ => hcap2, le_trans hpos hle⟩
      simpa [hq] using hres
  | advance p hp hle hcap2 =>
      refine ⟨?_, fun _ => hcap2, le_trans hpos hle⟩
      simpa [hp] using hres
  | complete r hp =>
      exact ⟨by simp, by simp, by norm_num⟩
  | fail msg hp hmsg =>
      refine ⟨?_, fun _ => ?_, hpos⟩
      · simpa [hp] using hres
      · exact hcap (by simp [hp])

theorem jobInv_reachable {j : JobState} (h : JobReachable j) : JobInv j := by
  induction h with
  | refl => exact jobInv_initial
  | tail _ hstep ih => exact jobInv_step ih hstep

theorem engineStep_progress_mono {j j' : JobState} (hinv : JobInv j)
    (hstep : EngineStep j j') : j.progress ≤ j'.progress := by
  cases hstep with
  | start p hq hle hcap => exact hle
  | advance p hp hle hcap => exact hle
  | complete r hp =>
      have := hinv.2.1 (by simp [hp])
      simpa using le_trans this (by norm_num)
  | fail msg hp hmsg => exact le_refl _

theorem engineStep_allowed {j j' : JobState} (hstep : EngineStep j j') :
    allowedTransition j.status j'.status = true := by
  cases hstep with
  | start p hq hle hcap => simp [hq, allowedTransition]
  | advance p hp hle hcap => simp [hp, allowedTransition]
  | complete r hp => simp [hp, allowedTransition]
  | fail msg hp hmsg => simp [hp, allowedTransition]

theorem engineStep_not_terminal {j j' : JobState}
    (hterm : j.status.isTerminal = true) (hstep : EngineStep j j') : False := by
  cases hstep with
  | start p hq hle hcap => rw [hq] at hterm; simp [JobStatus.isTerminal] at hterm
  | advance p hp hle hcap => rw [hp] at hterm; simp [JobStatus.isTerminal] at hterm
  | complete r hp => rw [hp] at hterm; simp [JobStatus.isTerminal] at hterm
  | fail msg hp hmsg => rw [hp] at hterm; simp [JobStatus.isTerminal] at hterm

/-- C1: for every submitted job, progress is non-decreasing over time until a
terminal state, status transitions follow exactly
`queued → processing → {completed|failed}`, and there is no transition out of
a terminal state back to `queued` or `processing`. -/
theorem job_lifecycle_monotone (j j' : JobState) (hreach : JobReachable j) :
    (EngineStep j j' → j.progress ≤ j'.progress ∧
      allowedTransition j.status j'.status = true) ∧
    (j.status.isTerminal = true → ¬ EngineStep j j') := by
  refine ⟨fun hstep => ⟨?_, engineStep_allowed hstep⟩, fun hterm hstep => ?_⟩
  · exact engineStep_progress_mono (jobInv_reachable hreach) hstep
  · exact engineStep_not_terminal hterm hstep

/-- C1 witness: the concrete first step of a fresh job, `queued → processing`
with progress rising from 0 to 5, satisfies the monotonicity and transition
conditions. -/
theorem job_lifecycle_monotone_witness :
    initialJob.progress ≤ (JobState.mk .processing 5 none none).progress ∧
    allowedTransition initialJob.status (JobState.mk .processing 5 none none).status
      = true :=
  (job_lifecycle_monotone initialJob (JobState.mk .processing 5 none none)
      Relation.ReflTransGen.refl).1
    (EngineStep.start initialJob 5 rfl (by norm_num [initialJob]) (by norm_num))

/-- C2: for every reachable job state, an AnalysisResult exists if and only if
the status is `completed`; while the job is `queued`, `processing` or `failed`
no AnalysisResult (not even a partial one) exists. -/
theorem result_iff_completed (j : JobState) (hreach : JobReachable j) :
    (j.result.isSome ↔ j.status = .completed) ∧
    (j.status ≠ .completed → j.result = none) := by
  have h := (jobInv_reachable hreach).1
  refine ⟨h, fun hne => ?_⟩
  cases hres : j.result with
  | none => rfl
  | some r => exact absurd (h.mp (by simp [hres])) hne

/-! ## Result retrieval and the job-detail page (C3) -/

/-- Outcome of the read contract `getResult(jobId)`. -/
inductive GetResultOutcome where
  | found (r : AnalysisResultRec)
  | notReady
  | notFound
deriving DecidableEq, Repr

/-- Modelled from the spec: the read contract
`getResult(jobId) -> AnalysisResult | NotReady | NotFound` of the Job
Lifecycle Engine (Backend/app, not present under src/): unknown id yields
`NotFound`, a job not yet `completed` yields the distinct `NotReady` signal,
a completed job yields its AnalysisResult. -/
def getResult (store : Nat → Option JobState) (jobId : Nat) : GetResultOutcome :=
  match store jobId with
  | none => .notFound
  | some j =>
    if j.status = .completed then
      match j.result with
      | some r => .found r
      | none => .notReady
    else .notReady

/-- An error caught by the job-detail page around `getVideoResult`: either an
`ApiError` carrying an optional HTTP status, or any other thrown error. -/
inductive PageError where
  | apiError (status : Option Nat)
  | otherError (tag : String)
deriving DecidableEq, Repr

/-- The guard `err instanceof ApiError && err.status && [400, 404].includes(err.status)`
from `videos/[id]/page.tsx` (a missing or zero status field is falsy). -/
def isNotReadyApiError : PageError → Bool
  | .apiError (some s) => decide (s ≠ 0) && (decide (s = 400) || decide (s = 404))
  | _ => false

/-- The `try { result = await getVideoResult(...) } catch` block of
`VideoDetailPage`: a success keeps the result, a 400/404 `ApiError` maps to a
null result, every other error is rethrown. -/
def handleResultFetch {α : Type} (o : Except PageError α) : Except PageError (Option α) :=
  match o with
  | .ok v => .ok (some v)
  | .error e => if isNotReadyApiError e then .ok none else .error e

/-- Text of the analysis-result card rendered by `VideoDetailPage` when
`result` is null (`videos/[id]/page.tsx` line 169). -/
def renderResultSection {α : Type} : Option α → String
  | none => "Result not available yet. The backend is still processing this video."
  | some _ => "analysis result"

/-- C3: a job that has not completed yields the distinct `NotReady` signal
(not a found result and not `NotFound`); the job-detail page maps an
`ApiError` with status 400 or 404 from `getVideoResult` to the null result
that renders the not-available text, and rethrows every other error. -/
theorem notReady_and_page_error_mapping :
    (∀ (store : Nat → Option JobState) (jobId : Nat) (j : JobState),
      store jobId = some j → j.status ≠ .completed →
        getResult store jobId = .notReady) ∧
    (handleResultFetch (α := AnalysisResultRec) (.error (.apiError (some 400)))
        = .ok none) ∧
    (handleResultFetch (α := AnalysisResultRec) (.error (.apiError (some 404)))
        = .ok none) ∧
    (∀ e : PageError, e ≠ .apiError (some 400) → e ≠ .apiError (some 404) →
        handleResultFetch (α := AnalysisResultRec) (.error e) = .error e) ∧
    renderResultSection (α := AnalysisResultRec) none
        = "Result not available yet. The backend is still processing this video." := by
  refine ⟨?_, rfl, rfl, ?_, rfl⟩
  · intro store jobId j hj hne
    simp [getResult, hj, hne]
  · intro e h400 h404
    have hguard : isNotReadyApiError e = false := by
      cases e with
      | apiError st =>
          cases st with
          | none => rfl
          | some s =>
              have hs400 : s ≠ 400 := fun h => h400 (by rw [h])
              have hs404 : s ≠ 404 := fun h => h404 (by rw [h])
              simp [isNotReadyApiError, hs400, hs404]
      | otherError tag => rfl
    simp [handleResultFetch, hguard]

/-- C3 witness: a store holding one job still `processing` under id 1 yields
`NotReady` from `getResult`. -/
theorem notReady_and_page_error_mapping_witness :
    getResult (fun i => if i = 1 then some (JobState.mk .processing 5 none none) else none) 1
      = .notReady :=
  notReady_and_page_error_mapping.1
    (fun i => if i = 1 then some (JobState.mk .processing 5 none none) else none) 1
    (JobState.mk .processing 5 none none) (by simp) (by simp)

/-- C2 witness: the freshly created job (`queued`) has no AnalysisResult. -/
theorem result_iff_completed_witness :
    (initialJob.result.isSome ↔ initialJob.status = .completed) ∧
    (initialJob.status ≠ .completed → initialJob.result = none) :=
  result_iff_completed initialJob Relation.ReflTransGen.refl

/-! ## Live analysis: frame messages and rate limit (LiveAnalysis.tsx, C4 and C5) -/

/-- One detected vehicle in a server message consumed by the client
(`AnalysisResult` interface in LiveAnalysis.tsx): id, bounding box
`[x, y, w, h]` and confidence. -/
structure LiveVehicle where
  id : String
  bbox : ℚ × ℚ × ℚ × ℚ
  confidence : ℚ
deriving DecidableEq, Repr

/-- The server response shape the client consumes: `{timestamp, vehicles}`. -/
structure LiveServerResult where
  timestamp : ℚ
  vehicles : List LiveVehicle
deriving DecidableEq, Repr

/-- The message the client sends per frame: `{frame, timestamp}` with the
frame a base64 JPEG whose data-URL prefix has been stripped. -/
structure LiveFrameMessage where
  frame : List Char
  timestamp : Int
deriving DecidableEq, Repr

/-- JavaScript `s.split(",")` on a character list: splits at every comma. -/
def splitOnComma : List Char → List (List Char)
  | [] => [[]]
  | c :: rest =>
    if c = ',' then [] :: splitOnComma rest
    else
      match splitOnComma rest with
      | [] => [[c]]
      | p :: ps => (c :: p) :: ps

/-- The data URL produced by `canvas.toDataURL("image/jpeg", 0.8)`: the JPEG
media-type prefix, a comma, then the base64 payload. -/
def toDataURL (payload : List Char) : List Char :=
  String.toList "data:image/jpeg;base64," ++ payload

/-- WebSocket ready states; the names follow the `WebSocket` constants. -/
inductive WsReadyState where
  | CONNECTING
  | OPEN
  | CLOSING
  | CLOSED
deriving DecidableEq, Repr

/-- The client-side view of a WebSocket: its ready state. -/
structure WSocket where
  readyState : WsReadyState
deriving DecidableEq, Repr

/-- The payload built inside `sendFrame`: `frame` is `frameData.split(",")[1]`
(the data-URL prefix removed) and `timestamp` is `Date.now()`. -/
def frameMessageOf (dataUrl : List Char) (now : Int) : LiveFrameMessage :=
  { frame := (splitOnComma dataUrl).getD 1 [], timestamp := now }

/-- The `sendFrame` function of LiveAnalysis.tsx: returns early when the video
ref, canvas ref or 2d context is missing, and transmits the frame message only
when the socket ready state is `OPEN`; otherwise nothing is sent. -/
def sendFrame (videoPresent canvasPresent ctxPresent : Bool) (ws : WSocket)
    (dataUrl : List Char) (now : Int) : Option LiveFrameMessage :=
  if !videoPresent || !canvasPresent then none
  else if !ctxPresent then none
  else if ws.readyState = .OPEN then some (frameMessageOf dataUrl now)
  else none

/-- The interval, in milliseconds, at which `startStreaming` schedules
`sendFrame` (`setInterval(..., 500)`, 2 FPS). -/
def frameIntervalMs : Int := 500

/-- Time of the k-th frame submission scheduled by `setInterval`. -/
def scheduledSendTime (start : Int) (k : Nat) : Int :=
  start + frameIntervalMs * (k : Int)

theorem splitOnComma_no_comma (l : List Char) (h : ∀ c ∈ l, c ≠ ',') :
    splitOnComma l = [l] := by
  induction l with
  | nil => rfl
  | cons c rest ih =>
      have hc : c ≠ ',' := h c (by simp)
      have hrest : splitOnComma rest = [rest] := ih fun x hx => h x (by simp [hx])
      simp [splitOnComma, hc, hrest]

/-- C4: every message `sendFrame` builds has the shape
`{frame: <base64 payload with the data-URL prefix stripped>, timestamp: <client time>}`
(for a comma-free base64 payload, the frame field is exactly the payload), and
every server response the client consumes has the shape
`{timestamp, vehicles: [{id, bbox: [x, y, w, h], confidence}]}`. -/
theorem live_message_shapes :
    (∀ (payload : List Char) (now : Int), (∀ c ∈ payload, c ≠ ',') →
      frameMessageOf (toDataURL payload) now
        = { frame := payload, timestamp := now }) ∧
    (∀ (r : LiveServerResult) (v : LiveVehicle), v ∈ r.vehicles →
      ∃ x y w h : ℚ, v.bbox = (x, y, w, h)) := by
  constructor
  · intro payload now hfree
    have hsplit :
        splitOnComma (toDataURL payload)
          = [String.toList "data:image/jpeg;base64", payload] := by
      have hpayload := splitOnComma_no_comma payload hfree
      simp [toDataURL, String.toList, splitOnComma, hpayload]
    simp [frameMessageOf, hsplit]
  · intro r v _
    exact ⟨v.bbox.1, v.bbox.2.1, v.bbox.2.2.1, v.bbox.2.2.2, rfl⟩

/-- C4 witness: a concrete comma-free payload comes through with its prefix
stripped and the client timestamp attached. -/
theorem live_message_shapes_witness :
    frameMessageOf (toDataURL (String.toList "QUJD")) 1700000000000
      = { frame := String.toList "QUJD", timestamp := 1700000000000 } :=
  live_message_shapes.1 (String.toList "QUJD") 1700000000000 (by decide)

/-- C5: the frame-submission interval is 500 ms; any two scheduled submission
times falling in one 500 ms window coincide (at most one frame per window);
and `sendFrame` transmits only on a socket whose ready state is `OPEN`. -/
theorem live_rate_limit :
    frameIntervalMs = 500 ∧
    (∀ (start t : Int) (k₁ k₂ : Nat),
      t ≤ scheduledSendTime start k₁ → scheduledSendTime start k₁ < t + 500 →
      t ≤ scheduledSendTime start k₂ → scheduledSendTime start k₂ < t + 500 →
      k₁ = k₂) ∧
    (∀ (v c x : Bool) (ws : WSocket) (dataUrl : List Char) (now : Int)
      (m : LiveFrameMessage),
      sendFrame v c x ws dataUrl now = some m → ws.readyState = .OPEN) := by
  refine ⟨rfl, ?_, ?_⟩
  · intro start t k₁ k₂ h₁ h₂ h₃ h₄
    simp only [scheduledSendTime, frameIntervalMs] at h₁ h₂ h₃ h₄
    omega
  · intro v c x ws dataUrl now m hsend
    by_cases hopen : ws.readyState = .OPEN
    · exact hopen
    · exfalso
      cases v <;> cases c <;> cases x <;>
        simp [sendFrame, hopen] at hsend

/-- C5 witness: two scheduled times in the window starting at the stream start
coincide, and a concrete transmission happens only on an `OPEN` socket. -/
theorem live_rate_limit_witness :
    (0 : Nat) = (0 : Nat) ∧ (WSocket.mk .OPEN).readyState = .OPEN :=
  ⟨live_rate_limit.2.1 0 0 0 0 (by norm_num [scheduledSendTime, frameIntervalMs])
      (by norm_num [scheduledSendTime, frameIntervalMs])
      (by norm_num [scheduledSendTime, frameIntervalMs])
      (by norm_num [scheduledSendTime, frameIntervalMs]),
    live_rate_limit.2.2 true true true (WSocket.mk .OPEN) [] 0
      (frameMessageOf [] 0) rfl⟩

/-! ## Live analysis teardown (LiveAnalysis.tsx, C6) -/

/-- The resources held by the LiveAnalysis component through its refs: the
frame-submission interval timer (`frameIntervalRef`), the WebSocket (`wsRef`),
the camera stream (`videoRef.current.srcObject`, a list of track ids), and the
two pieces of React state involved in teardown. -/
structure LiveComponentState where
  frameIntervalRef : Option Nat
  wsRef : Option WSocket
  srcObject : Option (List Nat)
  isStreaming : Bool
  analysisResults : Option LiveServerResult
deriving DecidableEq, Repr

/-- An externally visible release action performed during teardown. -/
inductive TeardownEffect where
  | clearFrameTimer (id : Nat)
  | closeSocket
  | stopTrack (t : Nat)
deriving DecidableEq, Repr

/-- The `stopStreaming` handler: clears the interval and nulls its ref, closes
the WebSocket and nulls its ref, stops every camera track and nulls
`srcObject`, then resets `isStreaming` and `analysisResults`. Returns the new
component state together with the release actions performed, in program
order. -/
def stopStreaming (s : LiveComponentState) :
    LiveComponentState × List TeardownEffect :=
  let intervalPart : Option Nat × List TeardownEffect :=
    match s.frameIntervalRef with
    | some id => (none, [.clearFrameTimer id])
    | none => (none, [])
  let wsPart : Option WSocket × List TeardownEffect :=
    match s.wsRef with
    | some _ => (none, [.closeSocket])
    | none => (none, [])
  let videoPart : Option (List Nat) × List TeardownEffect :=
    match s.srcObject with
    | some tracks => (none, tracks.map TeardownEffect.stopTrack)
    | none => (none, [])
  (⟨intervalPart.1, wsPart.1, videoPart.1, false, none⟩,
    intervalPart.2 ++ wsPart.2 ++ videoPart.2)

/-- The unmount cleanup of the component's `useEffect`: clears the interval if
set, closes the WebSocket if set, stops every track of the captured video
element's stream — the same release actions as `stopStreaming`, without
touching the refs (the component is going away). -/
def unmountCleanup (s : LiveComponentState) : List TeardownEffect :=
  (match s.frameIntervalRef with
    | some id => [TeardownEffect.clearFrameTimer id]
    | none => []) ++
  (match s.wsRef with
    | some _ => [TeardownEffect.closeSocket]
    | none => []) ++
  (match s.srcObject with
    | some tracks => tracks.map TeardownEffect.stopTrack
    | none => [])

/-- C6: stopping a live session releases everything — after `stopStreaming`
the interval ref, socket ref and camera stream are null and the streaming
state is reset; each held resource produces its release action; a second
invocation is a no-op (same state, no actions); and the unmount cleanup
performs exactly the same release actions as `stopStreaming` would. -/
theorem stopStreaming_idempotent_and_releases (s : LiveComponentState) :
    ((stopStreaming s).1.frameIntervalRef = none ∧
      (stopStreaming s).1.wsRef = none ∧
      (stopStreaming s).1.srcObject = none ∧
      (stopStreaming s).1.isStreaming = false ∧
      (stopStreaming s).1.analysisResults = none) ∧
    (∀ id, s.frameIntervalRef = some id →
      TeardownEffect.clearFrameTimer id ∈ (stopStreaming s).2) ∧
    (s.wsRef ≠ none → TeardownEffect.closeSocket ∈ (stopStreaming s).2) ∧
    (∀ tracks t, s.srcObject = some tracks → t ∈ tracks →
      TeardownEffect.stopTrack t ∈ (stopStreaming s).2) ∧
    stopStreaming (stopStreaming s).1 = ((stopStreaming s).1, []) ∧
    unmountCleanup s = (stopStreaming s).2 := by
  obtain ⟨fi, ws, so, st, ar⟩ := s
  refine ⟨?_, ?_, ?_, ?_, ?_, ?_⟩
  · cases fi <;> cases ws <;> cases so <;> simp [stopStreaming]
  · intro id hid
    cases fi <;> cases ws <;> cases so <;>
      simp_all [stopStreaming]
  · intro hws
    cases fi <;> cases ws <;> cases so <;>
      simp_all [stopStreaming]
  · intro tracks t htracks ht
    cases fi <;> cases ws <;> cases so <;>
      simp_all [stopStreaming]
  · cases fi <;> cases ws <;> cases so <;> simp [stopStreaming]
  · cases fi <;> cases ws <;> cases so <;> simp [stopStreaming, unmountCleanup]

/-- C6 witness: on a fully live state (timer 7, open socket, two camera
tracks) the first stop emits the timer-clear action, and the cleanup equals
the stop's action list. -/
theorem stopStreaming_idempotent_and_releases_witness :
    TeardownEffect.clearFrameTimer 7 ∈
      (stopStreaming ⟨some 7, some ⟨.OPEN⟩, some [1, 2], true, none⟩).2 ∧
    unmountCleanup ⟨some 7, some ⟨.OPEN⟩, some [1, 2], true, none⟩
      = (stopStreaming ⟨some 7, some ⟨.OPEN⟩, some [1, 2], true, none⟩).2 :=
  ⟨(stopStreaming_idempotent_and_releases
        ⟨some 7, some ⟨.OPEN⟩, some [1, 2], true, none⟩).2.1 7 rfl,
    (stopStreaming_idempotent_and_releases
        ⟨some 7, some ⟨.OPEN⟩, some [1, 2], true, none⟩).2.2.2.2.2⟩

/-! ## Job logs (C7) -/

/-- LogEntry: sequence-ordered timestamp (seconds), event tag, optional
message. -/
structure LogEntry where
  timestamp : ℚ
  event : String
  message : Option String
deriving DecidableEq, Repr

/-- Timestamps of the entries are in non-decreasing order (the append-only
log invariant). -/
def TimestampsSorted (l : List LogEntry) : Prop :=
  l.Pairwise fun a b => a.timestamp ≤ b.timestamp

/-- Modelled from the spec: the read contract
`getLogs(jobId, limit) -> ordered sequence of LogEntry, most recent bounded by
limit` of the Job Lifecycle Engine (Backend/app, not present under src/): the
most recent `limit` entries of the job's append-only log, kept in stored
order. -/
def getLogs (entries : List LogEntry) (limit : Nat) : List LogEntry :=
  entries.drop (entries.length - limit)

/-- The limit the job-detail page passes: `getVideoLogs(jobId, 200)`. -/
def pageLogsLimit : Nat := 200

/-- The data of one `<li>` rendered by `LogsList`: the timestamp and the
event tag, from a single entry. -/
def renderLogItem (e : LogEntry) : ℚ × String :=
  (e.timestamp, e.event)

/-- The `LogsList` component maps the entries it receives, in order, to list
items. -/
def logsListItems (entries : List LogEntry) : List (ℚ × String) :=
  entries.map renderLogItem

/-- C7: fetched log entries never exceed the requested limit and keep their
non-decreasing timestamp order; the detail page requests at most 200 entries
and `LogsList` renders the i-th received entry as the i-th item. -/
theorem logs_ordered_and_bounded :
    (∀ (entries : List LogEntry) (limit : Nat),
      (getLogs entries limit).length ≤ limit) ∧
    (∀ (entries : List LogEntry) (limit : Nat), TimestampsSorted entries →
      TimestampsSorted (getLogs entries limit)) ∧
    pageLogsLimit ≤ 200 ∧
    (∀ (entries : List LogEntry) (i : Nat) (h : i < entries.length),
      (logsListItems entries).get ⟨i, by simpa [logsListItems] using h⟩
        = renderLogItem (entries.get ⟨i, h⟩)) := by
  refine ⟨?_, ?_, le_refl _, ?_⟩
  · intro entries limit
    simp [getLogs]
    omega
  · intro entries limit hsorted
    exact hsorted.sublist (List.drop_sublist _ _)
  · intro entries i h
    simp [logsListItems]

/-- C7 witness: a concrete two-entry sorted log fetched with limit 1 stays
within the limit, stays sorted, and renders in order. -/
theorem logs_ordered_and_bounded_witness :
    (getLogs [LogEntry.mk 1 "upload_saved" none,
        LogEntry.mk 2 "job_completed" none] 1).length ≤ 1 ∧
    TimestampsSorted (getLogs [LogEntry.mk 1 "upload_saved" none,
        LogEntry.mk 2 "job_completed" none] 1) :=
  ⟨logs_ordered_and_bounded.1
      [LogEntry.mk 1 "upload_saved" none, LogEntry.mk 2 "job_completed" none] 1,
    logs_ordered_and_bounded.2.1
      [LogEntry.mk 1 "upload_saved" none, LogEntry.mk 2 "job_completed" none] 1
      (by simp [TimestampsSorted])⟩

/-! ## History page progress bar (VideosPage, C8) -/

/-- The progress-bar width on the history page:
`Math.min(100, Math.max(0, job.progress))` percent. -/
def progressBarWidth (p : Int) : Int :=
  min 100 (max 0 p)

/-- The text label next to the bar: the raw progress value followed by
`% complete`. -/
def progressLabel (p : Int) : String :=
  toString p ++ "% complete"

/-- C8: for every stored progress value, including values below 0 or above
100, the rendered bar width equals `max(0, min(100, progress))` and lies in
[0, 100], while the label shows the raw unclamped value. -/
theorem progress_bar_clamped (p : Int) :
    progressBarWidth p = max 0 (min 100 p) ∧
    0 ≤ progressBarWidth p ∧ progressBarWidth p ≤ 100 ∧
    progressLabel p = toString p ++ "% complete" := by
  refine ⟨?_, ?_, ?_, rfl⟩ <;> simp only [progressBarWidth] <;> omega

/-! ## Upload form submission (UploadCard.tsx, C9) -/

/-- A selected browser file; only its name matters to the upload form. -/
structure JsFile where
  name : String
deriving DecidableEq, Repr

/-- One value appended to the `FormData`. -/
inductive FormValue where
  | fileVal (f : JsFile)
  | str (s : String)
deriving DecidableEq, Repr

/-- What `onSubmit` does after `preventDefault`: either sets the validation
error (no upload request) or issues the upload request with the built
`FormData` entries. -/
inductive SubmitAction where
  | uploadRequest (formData : List (String × FormValue))
  | validationError (msg : String)
deriving DecidableEq, Repr

/-- The `onSubmit` handler of UploadCard.tsx: with no file selected it sets
the error and returns; otherwise it appends the file, a title that falls back
to the file name when the typed title is empty (`title || file.name`), and a
description entry only when the typed description is non-empty. -/
def onSubmit (title description : String) (file : Option JsFile) : SubmitAction :=
  match file with
  | none => .validationError "Please choose a video file."
  | some f =>
    .uploadRequest
      ([("file", .fileVal f),
        ("title", .str (if title = "" then f.name else title))] ++
        (if description = "" then [] else [("description", .str description)]))

/-- C9: when a file is selected, the FormData holds the file, a title equal to
the typed title when non-empty and to the file name otherwise, and a
description entry exactly when the typed description is non-empty; with no
file selected, no upload request is made and the error message is set. -/
theorem upload_form_data (title description : String) :
    (∀ f : JsFile, ∃ fd,
      onSubmit title description (some f) = .uploadRequest fd ∧
      ("file", FormValue.fileVal f) ∈ fd ∧
      ("title", FormValue.str (if title = "" then f.name else title)) ∈ fd ∧
      ((∃ s, ("description", FormValue.str s) ∈ fd) ↔ description ≠ "")) ∧
    (onSubmit title description none
        = .validationError "Please choose a video file." ∧
      ∀ fd, onSubmit title description none ≠ .uploadRequest fd) := by
  constructor
  · intro f
    refine ⟨_, rfl, by simp, by simp, ?_⟩
    by_cases hd : description = "" <;> simp [hd]
  · exact ⟨rfl, fun fd h => by simp [onSubmit] at h⟩

/-- C9 witness: an empty typed title with file `clip.mp4` and a non-empty
description yields an upload request whose title is the file name and which
carries a description entry. -/
theorem upload_form_data_witness :
    ∃ fd, onSubmit "" "night footage" (some (JsFile.mk "clip.mp4"))
        = .uploadRequest fd ∧
      ("file", FormValue.fileVal (JsFile.mk "clip.mp4")) ∈ fd ∧
      ("title", FormValue.str (if "" = "" then (JsFile.mk "clip.mp4").name
          else "")) ∈ fd ∧
      ((∃ s, ("description", FormValue.str s) ∈ fd) ↔ "night footage" ≠ "") :=
  (upload_form_data "" "night footage").1 (JsFile.mk "clip.mp4")

/-! ## Duration formatting on the job-detail page (C10) -/

/-- Round a rational to the nearest integer, ties to the even integer: the
rounding IEEE 754 arithmetic applies to the scaled significand. -/
def roundHalfEven (x : ℚ) : ℤ :=
  if x - ⌊x⌋ < 1 / 2 then ⌊x⌋
  else if 1 / 2 < x - ⌊x⌋ then ⌊x⌋ + 1
  else if ⌊x⌋ % 2 = 0 then ⌊x⌋ else ⌊x⌋ + 1

/-- The binary64 double nearest to a positive rational, as an exact rational:
53-bit significand rounding (ties to even) at scale `2 ^ (Int.log 2 q - 52)`.
The JavaScript expression `ms / 1000` evaluates to exactly
`nearestDouble (ms / 1000)` whenever `ms` is an integer of magnitude below
2^53, because IEEE division is correctly rounded; the normal range covers
every such quotient. -/
def nearestDouble (q : ℚ) : ℚ :=
  if 0 < q then
    ((roundHalfEven (q * 2 ^ ((52 : ℤ) - Int.log 2 q)) : ℤ) : ℚ)
      * 2 ^ (Int.log 2 q - (52 : ℤ))
  else 0

/-- The integer count of tenths that `toFixed(1)` picks for the double value
of `m / 1000`: per the ECMAScript specification, the integer `n` with
`n / 10` as close to the double as possible, the larger `n` on ties — round
half up of ten times the double. -/
def jsTenths (m : Int) : ℤ :=
  round ((10 : ℚ) * nearestDouble ((m : ℚ) / 1000))

/-- Decimal rendering of a tenths count with exactly one decimal place. -/
def renderTenths (t : Nat) : String :=
  toString (t / 10) ++ "." ++ toString (t % 10)

/-- The string `(ms / 1000).toFixed(1)` for a truthy `ms`: the sign, then the
tenths of the double value of `ms / 1000` rendered with one decimal place. -/
def toFixed1 (m : Int) : String :=
  if m < 0 then "-" ++ renderTenths (jsTenths (-m)).toNat
  else renderTenths (jsTenths m).toNat

/-- The `formatDuration` helper of `videos/[id]/page.tsx`: `none` models a
null or undefined `duration_ms`, and the JavaScript falsiness test `!ms` also
sends a stored 0 to the placeholder. -/
def formatDuration : Option Int → String
  | none => "—"
  | some ms => if ms = 0 then "—" else toFixed1 ms ++ "s"

theorem roundHalfEven_close (x : ℚ) :
    |((roundHalfEven x : ℤ) : ℚ) - x| ≤ 1 / 2 := by
  have h1 : (⌊x⌋ : ℚ) ≤ x := Int.floor_le x
  have h2 : x < ⌊x⌋ + 1 := Int.lt_floor_add_one x
  unfold roundHalfEven
  split_ifs with ha hb hc <;> rw [abs_le] <;> constructor <;> push_cast <;> linarith

theorem nearestDouble_nonneg (q : ℚ) : 0 ≤ nearestDouble q := by
  unfold nearestDouble
  split_ifs with hq
  · have hs : (0:ℚ) < q * 2 ^ ((52:ℤ) - Int.log 2 q) := by positivity
    have hrhe : (0:ℤ) ≤ roundHalfEven (q * 2 ^ ((52:ℤ) - Int.log 2 q)) := by
      have hfl : (0:ℤ) ≤ ⌊q * 2 ^ ((52:ℤ) - Int.log 2 q)⌋ := Int.floor_nonneg.mpr hs.le
      unfold roundHalfEven
      split_ifs <;> omega
    have hpow : (0:ℚ) < 2 ^ (Int.log 2 q - (52:ℤ)) := by positivity
    exact mul_nonneg (by exact_mod_cast hrhe) hpow.le
  · exact le_refl 0

theorem nearestDouble_close {q : ℚ} (hq : 0 < q) :
    |nearestDouble q - q| ≤ q / 2 ^ 53 := by
  set e := Int.log 2 q with he
  have hle : (2:ℚ) ^ e ≤ q := Int.zpow_log_le_self (by norm_num) hq
  set s : ℚ := q * 2 ^ ((52:ℤ) - e) with hs
  have hnd : nearestDouble q = ((roundHalfEven s : ℤ) : ℚ) * 2 ^ (e - (52:ℤ)) := by
    simp only [nearestDouble, if_pos hq, ← he, ← hs]
  have hpow : (0:ℚ) < 2 ^ (e - (52:ℤ)) := by positivity
  have hqs : s * 2 ^ (e - (52:ℤ)) = q := by
    rw [hs, mul_assoc, ← zpow_add₀ (by norm_num : (2:ℚ) ≠ 0)]
    rw [show (52:ℤ) - e + (e - 52) = 0 by ring, zpow_zero, mul_one]
  have hdiff : nearestDouble q - q
      = (((roundHalfEven s : ℤ) : ℚ) - s) * 2 ^ (e - (52:ℤ)) := by
    rw [hnd, ← hqs]
    ring
  rw [hdiff, abs_mul, abs_of_pos hpow]
  have h1 : |((roundHalfEven s : ℤ) : ℚ) - s| ≤ 1 / 2 := roundHalfEven_close s
  have h2 : |((roundHalfEven s : ℤ) : ℚ) - s| * 2 ^ (e - (52:ℤ))
      ≤ 2 ^ (e - (53:ℤ)) := by
    have hhalf : (2:ℚ) ^ (e - (53:ℤ)) = (1 / 2) * 2 ^ (e - (52:ℤ)) := by
      rw [show e - (53:ℤ) = (-1) + (e - 52) by ring,
        zpow_add₀ (by norm_num : (2:ℚ) ≠ 0)]
      norm_num
    rw [hhalf]
    exact mul_le_mul_of_nonneg_right h1 hpow.le
  have h3 : (2:ℚ) ^ (e - (53:ℤ)) ≤ q / 2 ^ 53 := by
    have hsplit : (2:ℚ) ^ (e - (53:ℤ)) = 2 ^ e / 2 ^ (53:ℕ) := by
      rw [zpow_sub₀ (by norm_num : (2:ℚ) ≠ 0)]
      norm_num
    rw [hsplit]
    gcongr
  exact le_trans h2 h3

theorem jsTenths_nonneg (m : ℤ) : 0 ≤ jsTenths m := by
  have hnd : 0 ≤ nearestDouble ((m : ℚ) / 1000) := nearestDouble_nonneg _
  have hten : (0:ℚ) ≤ 10 * nearestDouble ((m : ℚ) / 1000) :=
    mul_nonneg (by norm_num) hnd
  simp only [jsTenths]
  rw [round_eq]
  exact Int.floor_nonneg.mpr (by linarith)

theorem tenths_close {q : ℚ} (hq : 0 < q) :
    |((round ((10:ℚ) * nearestDouble q) : ℤ) : ℚ) / 10 - q|
      ≤ 1 / 20 + q / 2 ^ 52 := by
  have h1 : |nearestDouble q - q| ≤ q / 2 ^ 53 := nearestDouble_close hq
  have h2 : |((round ((10:ℚ) * nearestDouble q) : ℤ) : ℚ)
      - 10 * nearestDouble q| ≤ 1 / 2 := by
    rw [abs_sub_comm]
    exact abs_sub_round _
  have hkey : ((round ((10:ℚ) * nearestDouble q) : ℤ) : ℚ) / 10 - q
      = (((round ((10:ℚ) * nearestDouble q) : ℤ) : ℚ) - 10 * nearestDouble q) / 10
        + (nearestDouble q - q) := by
    ring
  have hdiv : |(((round ((10:ℚ) * nearestDouble q) : ℤ) : ℚ)
      - 10 * nearestDouble q) / 10| ≤ 1 / 20 := by
    rw [abs_div, show |(10:ℚ)| = 10 by norm_num]
    linarith
  have h53 : q / 2 ^ 53 ≤ q / 2 ^ 52 := by
    rw [div_le_div_iff₀ (by positivity) (by positivity)]
    exact mul_le_mul_of_nonneg_left (by norm_num) hq.le
  calc |((round ((10:ℚ) * nearestDouble q) : ℤ) : ℚ) / 10 - q|
      = |(((round ((10:ℚ) * nearestDouble q) : ℤ) : ℚ)
          - 10 * nearestDouble q) / 10 + (nearestDouble q - q)| := by rw [hkey]
    _ ≤ |(((round ((10:ℚ) * nearestDouble q) : ℤ) : ℚ)
          - 10 * nearestDouble q) / 10| + |nearestDouble q - q| := abs_add _ _
    _ ≤ 1 / 20 + q / 2 ^ 53 := add_le_add hdiv h1
    _ ≤ 1 / 20 + q / 2 ^ 52 := by linarith

theorem jsTenths_close {m : ℤ} (hm : 0 < m) :
    |((jsTenths m : ℤ) : ℚ) / 10 - (m : ℚ) / 1000|
      ≤ 1 / 20 + ((m : ℚ) / 1000) / 2 ^ 52 := by
  have hm0 : (0:ℚ) < (m : ℚ) := by exact_mod_cast hm
  have hq : (0:ℚ) < (m : ℚ) / 1000 := div_pos hm0 (by norm_num)
  simpa [jsTenths] using tenths_close hq

/-- C10: `formatDuration` returns the placeholder for null/undefined and also
for exactly 0 (a zero-millisecond duration displays as if unrecorded), and
every positive duration renders with exactly one decimal digit followed by
`s`, the digit count `t` of tenths being `toFixed(1)` of the double value of
`m / 1000` — within 1/20 plus one double rounding error of `m / 1000`
itself. -/
theorem formatDuration_zero_and_positive :
    formatDuration none = "—" ∧
    formatDuration (some 0) = "—" ∧
    formatDuration (some 0) = formatDuration none ∧
    (∀ m : Int, 0 < m → ∃ t : Nat,
      formatDuration (some m)
          = toString (t / 10) ++ "." ++ toString (t % 10) ++ "s" ∧
      (toString (t % 10)).length = 1 ∧
      |(t : ℚ) / 10 - (m : ℚ) / 1000| ≤ 1 / 20 + ((m : ℚ) / 1000) / 2 ^ 52) := by
  refine ⟨rfl, rfl, rfl, ?_⟩
  intro m hm
  have hnn : 0 ≤ jsTenths m := jsTenths_nonneg m
  refine ⟨(jsTenths m).toNat, ?_, ?_, ?_⟩
  · have hne : m ≠ 0 := ne_of_gt hm
    have hneg : ¬ m < 0 := not_lt.mpr (le_of_lt hm)
    simp [formatDuration, hne, toFixed1, hneg, renderTenths]
  · have hdigit : (jsTenths m).toNat % 10 < 10 := Nat.mod_lt _ (by norm_num)
    interval_cases h : ((jsTenths m).toNat % 10) <;> rfl
  · have hcast : (((jsTenths m).toNat : ℤ) : ℚ) = ((jsTenths m : ℤ) : ℚ) := by
      exact_mod_cast Int.toNat_of_nonneg hnn
    have hcast2 : (((jsTenths m).toNat : ℚ)) = ((jsTenths m : ℤ) : ℚ) := by
      exact_mod_cast hcast
    rw [hcast2]
    exact jsTenths_close hm

/-- C10 witness: the placeholder at a zero duration, and the one-decimal
rendering with its accuracy bound at the concrete duration 1234 ms. -/
theorem formatDuration_zero_and_positive_witness :
    formatDuration (some 0) = "—" ∧
    (∃ t : Nat,
      formatDuration (some 1234)
          = toString (t / 10) ++ "." ++ toString (t % 10) ++ "s" ∧
      (toString (t % 10)).length = 1 ∧
      |(t : ℚ) / 10 - ((1234 : Int) : ℚ) / 1000|
        ≤ 1 / 20 + (((1234 : Int) : ℚ) / 1000) / 2 ^ 52) :=
  ⟨formatDuration_zero_and_positive.2.1,
    formatDuration_zero_and_positive.2.2.2 1234 (by norm_num)⟩

end VehicleReId
